import Mathlib

/-
Verification of the annotated-tag object decoder in
`git-odb/src/object/parsed.rs`.

Byte buffers are modelled as `List Nat` (each element a byte value).
Rust slices borrowed from the input become sub-lists obtained with
`List.take`/`List.drop`: a view `&d[a..b]` is the list `slice d a b`.

Fallible Rust functions returning `Result<T, Error>` become
`Except Error T`.  Functions that can additionally panic (via `expect`
on input-dependent data, or an out-of-range slice index) return
`Option (Except Error T)`, where `none` models abnormal termination
(panic/abort) and `some` a normally returned value.

Machine-integer arithmetic: Rust `i32` parsing rejects out-of-range
text, and the `hours * 3600 + minutes * 60` computation is modelled
with wrapping (release-mode) two's-complement semantics via `wrap32`.
-/

set_option maxRecDepth 100000

namespace GitOdb

instance {ε α : Type} [DecidableEq ε] [DecidableEq α] : DecidableEq (Except ε α) := fun x y =>
  match x, y with
  | .error a, .error b =>
    if h : a = b then .isTrue (by rw [h]) else .isFalse (by intro hc; cases hc; exact h rfl)
  | .ok a, .ok b =>
    if h : a = b then .isTrue (by rw [h]) else .isFalse (by intro hc; cases hc; exact h rfl)
  | .error _, .ok _ => .isFalse (by intro hc; cases hc)
  | .ok _, .error _ => .isFalse (by intro hc; cases hc)

/-- `Sign` from the crate root (`crate::Sign`). -/
inductive Sign where
  | plus
  | minus
deriving DecidableEq

/-- `Time` from the crate root: seconds (`u32` as `Nat`), offset (`i32` as `Int`), sign. -/
structure Time where
  time : Nat
  offset : Int
  sign : Sign
deriving DecidableEq

/-- `Signature<'data>`; `name` and `email` are views into the input buffer. -/
structure Signature where
  name : List Nat
  email : List Nat
  time : Time
deriving DecidableEq

/-- Modelled from the spec: the external object-kind enumeration
(`object::Kind`), recognizing `commit`, `tree`, `blob`, `tag`;
its own decoder is outside this core (§6 of the design). -/
inductive Kind where
  | commit
  | tree
  | blob
  | tag
deriving DecidableEq

/-- Modelled from the spec: the external object-kind decoder error
(`object::Error`), carrying the unrecognized bytes. -/
structure KindError where
  bytes : List Nat
deriving DecidableEq

/-- The error enumeration of `parsed.rs` (`quick_error!` block).
Static message texts are reproduced up to ASCII quoting
(the source quotes some field names with apostrophes). -/
inductive Error where
  | invalidObjectKind : List Nat → Error
  | parseError : String → List Nat → Error
  | objectKind : KindError → Error
deriving DecidableEq

def msgSplitValidation : String := "Invalid space separated tokens - validation failed"
def msgSplitTwo : String := "Invalid tokens - expected 2 when split at space"
def msgTz : String := "invalid timezone offset"
def msgHours : String := "invalid hours string"
def msgMinutes : String := "invalid minutes string"
def msgEmailBegin : String := "Could not find beginning of email marked by the less-than byte"
def msgEmailInPlace : String := "Email found in place of author name"
def msgEmailEnd : String := "Could not find end of email marked by the greater-than byte"
def msgNoTime : String := "There is no time after email"
def msgSeconds : String := "Could parse to seconds"
def msgSeparatorNoMsg : String := "Message separator was not followed by message"
def msgNoPgpEnd : String := "Did not find end of signature marker"
def msgExpectEmpty : String := "Expected empty newline to separate message"
def msgFourLines : String := "Expected four lines: target, type, tag and tagger"

/-- ASCII string to byte list (all concrete inputs in this file are ASCII,
except where a raw byte is appended explicitly). -/
def bytesOfAscii (s : String) : List Nat := s.data.map Char.toNat

/-- Rust view `&d[a..b]`. -/
def slice (d : List Nat) (a b : Nat) : List Nat := (d.take b).drop a

/-- `PGP_SIGNATURE_BEGIN`. -/
def pgpBegin : List Nat := bytesOfAscii ("-----BEGIN PGP SIGNATURE-----")

/-- `PGP_SIGNATURE_END`. -/
def pgpEnd : List Nat := bytesOfAscii ("-----END PGP SIGNATURE-----")

/-- One decimal-digit value, as used by Rust integer `FromStr`. -/
def digVal? (c : Nat) : Option Nat :=
  if 48 ≤ c ∧ c ≤ 57 then some (c - 48) else none

/-- Accumulating decimal parse over the remaining bytes. -/
def digitsLoop : Nat → List Nat → Option Nat
  | acc, [] => some acc
  | acc, c :: r =>
    match digVal? c with
    | some v => digitsLoop (acc * 10 + v) r
    | none => none

/-- Decimal parse of a non-empty all-digit byte string. -/
def digitsToNat? : List Nat → Option Nat
  | [] => none
  | l => digitsLoop 0 l

/-- Range check for the non-negative `i32` parse results. -/
def posBound? : Option Nat → Option Int
  | some n => if n ≤ 2147483647 then some ((n : Int)) else none
  | none => none

/-- Range check and negation for `i32` parse of a minus-signed string. -/
def negBound? : Option Nat → Option Int
  | some n => if n ≤ 2147483648 then some (-(n : Int)) else none
  | none => none

/-- Rust `str::parse::<i32>`: optional sign, then decimal digits, range-checked. -/
def parseI32 : List Nat → Option Int
  | [] => none
  | c :: rest =>
    if c = 43 then posBound? (digitsToNat? rest)
    else if c = 45 then negBound? (digitsToNat? rest)
    else posBound? (digitsToNat? (c :: rest))

/-- Range check for `u32` parse results. -/
def u32Bound? : Option Nat → Option Nat
  | some n => if n < 4294967296 then some n else none
  | none => none

/-- Rust `str::parse::<u32>`: optional plus sign, then decimal digits, range-checked. -/
def parseU32 : List Nat → Option Nat
  | [] => none
  | c :: rest =>
    if c = 43 then u32Bound? (digitsToNat? rest)
    else u32Bound? (digitsToNat? (c :: rest))

/-- Two's-complement wrap to the `i32` range (release-mode overflow semantics). -/
def wrap32 (n : Int) : Int := (n + 2147483648) % 4294967296 - 2147483648

/-- UTF-8 continuation byte. -/
def isCont (b : Nat) : Bool := 128 ≤ b && b ≤ 191

/-- Recursion core of the UTF-8 validity predicate; the fuel argument (any
bound on the number of decoding steps, at least the list length) makes the
one-to-four byte steps structurally decreasing. -/
def utf8Go : Nat → List Nat → Bool
  | _, [] => true
  | 0, _ :: _ => false
  | fuel + 1, b :: rest =>
    if b ≤ 127 then utf8Go fuel rest
    else if 194 ≤ b ∧ b ≤ 223 then
      match rest with
      | c1 :: r => isCont c1 && utf8Go fuel r
      | [] => false
    else if b = 224 then
      match rest with
      | c1 :: c2 :: r => (160 ≤ c1 && c1 ≤ 191) && (isCont c2 && utf8Go fuel r)
      | _ => false
    else if 225 ≤ b ∧ b ≤ 236 then
      match rest with
      | c1 :: c2 :: r => isCont c1 && (isCont c2 && utf8Go fuel r)
      | _ => false
    else if b = 237 then
      match rest with
      | c1 :: c2 :: r => (128 ≤ c1 && c1 ≤ 159) && (isCont c2 && utf8Go fuel r)
      | _ => false
    else if 238 ≤ b ∧ b ≤ 239 then
      match rest with
      | c1 :: c2 :: r => isCont c1 && (isCont c2 && utf8Go fuel r)
      | _ => false
    else if b = 240 then
      match rest with
      | c1 :: c2 :: c3 :: r => (144 ≤ c1 && c1 ≤ 191) && (isCont c2 && (isCont c3 && utf8Go fuel r))
      | _ => false
    else if 241 ≤ b ∧ b ≤ 243 then
      match rest with
      | c1 :: c2 :: c3 :: r => isCont c1 && (isCont c2 && (isCont c3 && utf8Go fuel r))
      | _ => false
    else if b = 244 then
      match rest with
      | c1 :: c2 :: c3 :: r => (128 ≤ c1 && c1 ≤ 143) && (isCont c2 && (isCont c3 && utf8Go fuel r))
      | _ => false
    else false

/-- Validity predicate of Rust `str::from_utf8` on a byte string. -/
def utf8Valid (l : List Nat) : Bool := utf8Go l.length l

/-- One hex-digit value, as accepted by the `hex` crate (both cases). -/
def hexVal? (c : Nat) : Option Nat :=
  if 48 ≤ c ∧ c ≤ 57 then some (c - 48)
  else if 97 ≤ c ∧ c ≤ 102 then some (c - 87)
  else if 65 ≤ c ∧ c ≤ 70 then some (c - 55)
  else none

/-- Pairwise hex decoding of an even-length hex string. -/
def hexBytes? : List Nat → Option (List Nat)
  | [] => some []
  | [_] => none
  | a :: b :: r =>
    match hexVal? a, hexVal? b, hexBytes? r with
    | some x, some y, some bs => some ((x * 16 + y) :: bs)
    | _, _, _ => none

/-- `<[u8; 20]>::from_hex`: exactly 40 hex characters decode to 20 bytes. -/
def hexDecode20 (s : List Nat) : Option (List Nat) :=
  if s.length = 40 then hexBytes? s else none

/-- Modelled from the spec: the external object-kind decoder
(`object::Kind::from_bytes`), recognizing `commit`, `tree`, `blob`, `tag`
and failing on anything else with the offending bytes (§6 of the design). -/
def Kind.from_bytes (s : List Nat) : Except KindError Kind :=
  if s = bytesOfAscii ("commit") then .ok .commit
  else if s = bytesOfAscii ("tree") then .ok .tree
  else if s = bytesOfAscii ("blob") then .ok .blob
  else if s = bytesOfAscii ("tag") then .ok .tag
  else .error ⟨s⟩

/-- Rust `d.splitn(2, |&b| b == b' ')` collected to a list: one element
when no space occurs, otherwise the bytes before the first space and
everything after it. -/
def splitn2_space : List Nat → List (List Nat)
  | [] => [[]]
  | b :: rest =>
    if b = 32 then [[], rest]
    else
      match splitn2_space rest with
      | [t] => [b :: t]
      | t1 :: ts => (b :: t1) :: ts
      | [] => [[b]]

/-- `split2_at_space` from `parsed.rs`. -/
def split2_at_space (d : List Nat) (is_valid : List Nat → List Nat → Bool) :
    Except Error (List Nat × List Nat) :=
  match splitn2_space d with
  | [t1, t2] =>
    if is_valid t1 t2 then .ok (t1, t2)
    else .error (.parseError msgSplitValidation d)
  | _ => .error (.parseError msgSplitTwo d)

/-- The `sign` binding of `parse_timezone_offset`: `Minus` when the first
byte is a minus, `Plus` otherwise. -/
def tzSign (d : List Nat) : Sign :=
  if d.head? = some 45 then Sign.minus else Sign.plus

/-- `parse_timezone_offset` from `parsed.rs`.  The two `from_utf8(..).expect`
steps on the byte halves of the (already UTF-8) input can still fail when
byte index 3 falls inside a multi-byte character; `none` models that panic. -/
def parse_timezone_offset (d : List Nat) : Option (Except Error (Int × Sign)) :=
  if d.length < 5 ∨ ¬(d.head? = some 43 ∨ d.head? = some 45) then
    some (.error (.parseError msgTz d))
  else
    let sign := tzSign d
    if utf8Valid (d.take 3) then
      match parseI32 (d.take 3) with
      | none => some (.error (.parseError msgHours (d.take 3)))
      | some hours =>
        if utf8Valid (d.drop 3) then
          match parseI32 (d.drop 3) with
          | none => some (.error (.parseError msgMinutes (d.drop 3)))
          | some minutes => some (.ok (wrap32 (hours * 3600 + minutes * 60), sign))
        else none
    else none

/-- `parse_signature` from `parsed.rs`.  `none` models the two panic
sources reachable from malformed input: the `from_utf8(..).expect` calls on
the time and offset tokens, and the slice `&d[email_end + 2..]` whose start
index can exceed the line length. -/
def parse_signature (d : List Nat) : Option (Except Error Signature) :=
  match List.findIdx? (fun b => b = 60) d with
  | none => some (.error (.parseError msgEmailBegin d))
  | some email_begin =>
    if email_begin = 0 then some (.error (.parseError msgEmailInPlace d))
    else
      match List.findIdx? (fun b => b = 62) (d.drop email_begin) with
      | none => some (.error (.parseError msgEmailEnd d))
      | some pos =>
        if pos ≥ d.length - 1 - 1 then some (.error (.parseError msgNoTime d))
        else
          let email_end := email_begin + pos
          if d.length < email_end + 1 + 1 then none
          else
            match split2_at_space (d.drop (email_end + 1 + 1)) (fun _ _ => true) with
            | .error e => some (.error e)
            | .ok (t1, t2) =>
              if utf8Valid t1 then
                if utf8Valid t2 then
                  match parse_timezone_offset t2 with
                  | none => none
                  | some (.error e) => some (.error e)
                  | some (.ok (offset, sign)) =>
                    match parseU32 t1 with
                    | none => some (.error (.parseError msgSeconds t1))
                    | some secs =>
                      some (.ok { name := d.take (email_begin - 1),
                                  email := slice d (email_begin + 1) email_end,
                                  time := { time := secs, offset := offset, sign := sign } })
                else none
              else none

/-- `Iterator::find` on the remaining lines: drops lines up to and
including the first one satisfying the predicate, `none` when absent. -/
def findAfter (p : List Nat → Bool) : List (List Nat) → Option (List (List Nat))
  | [] => none
  | l :: ls => if p l then some ls else findAfter p ls

/-- `parse_message` from `parsed.rs`: `d` is the buffer the caller hands in
(the full input, in `Tag::from_bytes`), `ls` the lines remaining after the
four headers.  `msg_begin` is the source's literal `0` and `msg_end` its
literal `d.len()` (both marked TODO there). -/
def parse_message (d : List Nat) (ls : List (List Nat)) :
    Except Error (Option (List Nat) × Option (List Nat)) :=
  match ls with
  | [] => .ok (none, none)
  | l :: rest =>
    if l.length = 0 then
      if d.length ≤ 0 then .error (.parseError msgSeparatorNoMsg d)
      else
        match findAfter (fun l2 => pgpBegin.isPrefixOf l2) rest with
        | none => .ok (some (slice d 0 d.length), none)
        | some rest2 =>
          match findAfter (fun l2 => pgpEnd.isPrefixOf l2) rest2 with
          | none => .error (.parseError msgNoPgpEnd d)
          | some _ => .ok (some (slice d 0 d.length), some (d.drop d.length))
    else .error (.parseError msgExpectEmpty l)

/-- `Tag<'data>`; slice fields are views into the input buffer. -/
structure Tag where
  target_raw : List Nat
  name_raw : List Nat
  target_kind : Kind
  message : Option (List Nat)
  pgp_signature : Option (List Nat)
  signature : Signature
deriving DecidableEq

/-- `Tag::target`: hex-decode of `target_raw`; `none` models the
`expect("prior validation")` abort. -/
def Tag.target (t : Tag) : Option (List Nat) := hexDecode20 t.target_raw

/-- Acceptance predicate of the `object` header line. -/
def objectPred (f v : List Nat) : Bool :=
  f == bytesOfAscii ("object") && (v.length == 40 && (hexDecode20 v).isSome)

/-- Acceptance predicate of the `type` header line. -/
def typePred (f : List Nat) (_v : List Nat) : Bool := f == bytesOfAscii ("type")

/-- Acceptance predicate of the `tag` header line. -/
def tagPred (f : List Nat) (_v : List Nat) : Bool := f == bytesOfAscii ("tag")

/-- Acceptance predicate of the `tagger` header line. -/
def taggerPred (f : List Nat) (_v : List Nat) : Bool := f == bytesOfAscii ("tagger")

/-- `Tag::from_bytes` from `parsed.rs`: split the input at newline bytes,
validate the four header lines, parse the tagger signature, then hand the
full buffer plus the remaining lines to `parse_message`. -/
def Tag.from_bytes (d : List Nat) : Option (Except Error Tag) :=
  match List.splitOn 10 d with
  | l1 :: l2 :: l3 :: l4 :: rest =>
    match split2_at_space l1 objectPred with
    | .error e => some (.error e)
    | .ok (_, target) =>
      match split2_at_space l2 typePred with
      | .error e => some (.error e)
      | .ok (_, kindBytes) =>
        match Kind.from_bytes kindBytes with
        | .error e => some (.error (.objectKind e))
        | .ok kind =>
          match split2_at_space l3 tagPred with
          | .error e => some (.error e)
          | .ok (_, name) =>
            match split2_at_space l4 taggerPred with
            | .error e => some (.error e)
            | .ok (_, tagger) =>
              match parse_signature tagger with
              | none => none
              | some (.error e) => some (.error e)
              | some (.ok sig) =>
                match parse_message d rest with
                | .error e => some (.error e)
                | .ok (message, pgp) =>
                  some (.ok { target_raw := target, name_raw := name,
                              target_kind := kind, message := message,
                              pgp_signature := pgp, signature := sig })
  | _ => some (.error (.parseError msgFourLines d))

/-- The end-to-end scenario input of the spec (§8). -/
def c1Input : List Nat := bytesOfAscii
  ("object 1234567890123456789012345678901234567890\ntype commit\ntag v1.0\ntagger A U Thor <author@example.com> 1112911993 +0200\n\nRelease v1.0\n")

/-- The tag value `Tag::from_bytes` actually produces on `c1Input`. -/
def c1Tag : Tag :=
  { target_raw := bytesOfAscii ("1234567890123456789012345678901234567890"),
    name_raw := bytesOfAscii ("v1.0"),
    target_kind := .commit,
    message := some c1Input,
    pgp_signature := none,
    signature := { name := bytesOfAscii ("A U Thor"),
                   email := bytesOfAscii ("author@example.com"),
                   time := { time := 1112911993, offset := 7200, sign := .plus } } }

/-- A well-formed input whose body is the single line `Hello`. -/
def c2Input : List Nat := bytesOfAscii
  ("object 1111111111111111111111111111111111111111\ntype commit\ntag v2\ntagger B <b@c> 7 +0000\n\nHello\n")

/-- Four headers terminated by a newline, so the line iterator yields one
empty line (the separator) and nothing after it. -/
def c2bInput : List Nat := bytesOfAscii
  ("object 1111111111111111111111111111111111111111\ntype commit\ntag v2\ntagger B <b@c> 7 +0000\n")

/-- A buffer whose tagger time token is the lone byte `0xC0` (not UTF-8). -/
def c3Input : List Nat :=
  bytesOfAscii ("object 1234567890123456789012345678901234567890\ntype commit\ntag v\ntagger A <e> ")
    ++ [192] ++ bytesOfAscii (" +0000")

/-- A concrete successfully parsed input for the C5 witness. -/
def c5Input : List Nat := bytesOfAscii
  ("object 0000000000000000000000000000000000000000\ntype tag\ntag t\ntagger a <b> 0 +0000")

/-- The tag parsed from `c5Input`. -/
def c5Tag : Tag :=
  { target_raw := bytesOfAscii ("0000000000000000000000000000000000000000"),
    name_raw := bytesOfAscii ("t"),
    target_kind := .tag,
    message := none,
    pgp_signature := none,
    signature := { name := bytesOfAscii ("a"),
                   email := bytesOfAscii ("b"),
                   time := { time := 0, offset := 0, sign := .plus } } }

/-- A well-formed input for the round-trip view property. -/
def c9Input : List Nat := bytesOfAscii
  ("object aaaaaaaaaaaaaaaaaaaaaaaaaaaaaaaaaaaaaaaa\ntype blob\ntag nine\ntagger Nine N <nine@example.com> 99 +0130\n\nBody\n")

/-- A concrete signed-tag input for the C10 witness. -/
def c10Input : List Nat := bytesOfAscii
  ("object 2222222222222222222222222222222222222222\ntype commit\ntag s\ntagger S <s@t> 3 +0000\n\nmsg\n-----BEGIN PGP SIGNATURE-----\nabc\n-----END PGP SIGNATURE-----\n")

/-- The tag parsed from `c10Input`. -/
def c10Tag : Tag :=
  { target_raw := bytesOfAscii ("2222222222222222222222222222222222222222"),
    name_raw := bytesOfAscii ("s"),
    target_kind := .commit,
    message := some c10Input,
    pgp_signature := some [],
    signature := { name := bytesOfAscii ("S"),
                   email := bytesOfAscii ("s@t"),
                   time := { time := 3, offset := 0, sign := .plus } } }

/-- An always-accepting token predicate (for the C7 witness). -/
def predTrue (_t1 _t2 : List Nat) : Bool := true

/-- An always-rejecting token predicate (for the C7 witness). -/
def predFalse (_t1 _t2 : List Nat) : Bool := false

/-- Definition following the claim's words (not the source), for comparison:
hours parsed as a signed integer from the first 3 bytes, minutes parsed as
an unsigned integer from the remaining bytes, offset = hours*3600 +
minutes*60. -/
def claimedTzOffset (d : List Nat) : Option Int :=
  match parseI32 (d.take 3), parseU32 (d.drop 3) with
  | some h, some m => some (h * 3600 + (m : Int) * 60)
  | _, _ => none

end GitOdb

namespace GitOdb

/-- A line without a space byte yields a single `splitn(2, ..)` token. -/
theorem splitn2_space_no_space (d : List Nat) (h : 32 ∉ d) : splitn2_space d = [d] := by
  induction d with
  | nil => rfl
  | cons b rest ih =>
    simp only [List.mem_cons, not_or] at h
    have hb : ¬ b = 32 := fun hb => h.1 hb.symm
    simp only [splitn2_space, if_neg hb]
    rw [ih h.2]

/-- A line with a space splits at the first space into the bytes before it
and the bytes after it. -/
theorem splitn2_space_first_space (t1 t2 : List Nat) (h : 32 ∉ t1) :
    splitn2_space (t1 ++ 32 :: t2) = [t1, t2] := by
  induction t1 with
  | nil => simp [splitn2_space]
  | cons b t1' ih =>
    simp only [List.mem_cons, not_or] at h
    have hb : ¬ b = 32 := fun hb => h.1 hb.symm
    simp only [List.cons_append, splitn2_space, if_neg hb, List.append_eq]
    rw [ih h.2]

/-- A successful `split2_at_space` only returns token pairs accepted by the
caller-supplied predicate. -/
theorem split2_ok_valid (d : List Nat) (p : List Nat → List Nat → Bool)
    (t1 t2 : List Nat) (h : split2_at_space d p = .ok (t1, t2)) : p t1 t2 = true := by
  simp only [split2_at_space] at h
  split at h
  · split at h
    · rename_i hval
      cases h
      exact hval
    · cases h
  · cases h

/-- Hex decoding consumes exactly two input bytes per output byte. -/
theorem hexBytes_length : ∀ (s bs : List Nat), hexBytes? s = some bs → s.length = 2 * bs.length
  | [], bs, h => by
    simp only [hexBytes?, Option.some.injEq] at h
    subst h
    rfl
  | [_], bs, h => by
    simp only [hexBytes?] at h
    cases h
  | a :: b :: r, bs, h => by
    simp only [hexBytes?] at h
    split at h
    · rename_i x y bs' hva hvb hr
      cases h
      have ih := hexBytes_length r bs' hr
      simp only [List.length_cons, ih]
      ring
    · cases h

/-- A successful 20-byte hex decode implies a 40-byte input and 20-byte output. -/
theorem hexDecode20_some (s bs : List Nat) (h : hexDecode20 s = some bs) :
    s.length = 40 ∧ bs.length = 20 := by
  simp only [hexDecode20] at h
  split at h
  · rename_i hlen
    have := hexBytes_length s bs h
    omega
  · cases h

/-- Helper for `utf8Valid_ascii`: enough fuel validates any ASCII list. -/
theorem utf8Go_ascii (fuel : Nat) : ∀ l : List Nat, l.length ≤ fuel →
    (∀ b ∈ l, b ≤ 127) → utf8Go fuel l = true := by
  induction fuel with
  | zero =>
    intro l hl _
    match l with
    | [] => rfl
  | succ fuel ih =>
    intro l hl h
    match l with
    | [] => rfl
    | b :: rest =>
      have hb : b ≤ 127 := h b (List.mem_cons_self b rest)
      simp only [utf8Go, if_pos hb]
      exact ih rest (by simpa using hl) (fun x hx => h x (List.mem_cons_of_mem b hx))

/-- Every all-ASCII byte string is valid UTF-8. -/
theorem utf8Valid_ascii (l : List Nat) (h : ∀ b ∈ l, b ≤ 127) : utf8Valid l = true :=
  utf8Go_ascii l.length l (Nat.le_refl _) h

/-- `wrap32` is the identity on the `i32` range. -/
theorem wrap32_eq (n : Int) (h1 : -2147483648 ≤ n) (h2 : n < 2147483648) : wrap32 n = n := by
  unfold wrap32
  rw [Int.emod_eq_of_lt (by omega) (by omega)]
  omega

/-- Unfolding equation for `digitsLoop` on a cons cell. -/
theorem digitsLoop_cons (acc c : Nat) (r : List Nat) :
    digitsLoop acc (c :: r) =
      match digVal? c with
      | some v => digitsLoop (acc * 10 + v) r
      | none => none := rfl

/-- Two decimal digits parse to their two-digit value. -/
theorem digitsToNat?_two (a b : Nat) (ha1 : 48 ≤ a) (ha2 : a ≤ 57)
    (hb1 : 48 ≤ b) (hb2 : b ≤ 57) :
    digitsToNat? [a, b] = some (10 * (a - 48) + (b - 48)) := by
  have hda : digVal? a = some (a - 48) := by
    unfold digVal?
    rw [if_pos ⟨ha1, ha2⟩]
  have hdb : digVal? b = some (b - 48) := by
    unfold digVal?
    rw [if_pos ⟨hb1, hb2⟩]
  show digitsLoop 0 [a, b] = _
  rw [digitsLoop_cons, hda]
  show digitsLoop (0 * 10 + (a - 48)) [b] = _
  rw [digitsLoop_cons, hdb]
  show some ((0 * 10 + (a - 48)) * 10 + (b - 48)) = _
  congr 1
  omega

/-- `i32` parse of a two-digit string. -/
theorem parseI32_digits2 (a b : Nat) (ha1 : 48 ≤ a) (ha2 : a ≤ 57)
    (hb1 : 48 ≤ b) (hb2 : b ≤ 57) :
    parseI32 [a, b] = some (((10 * (a - 48) + (b - 48) : Nat) : Int)) := by
  have hne43 : ¬ a = 43 := by omega
  have hne45 : ¬ a = 45 := by omega
  simp only [parseI32, if_neg hne43, if_neg hne45]
  rw [digitsToNat?_two a b ha1 ha2 hb1 hb2]
  simp only [posBound?]
  rw [if_pos (by omega)]

/-- `i32` parse of a plus sign followed by two digits. -/
theorem parseI32_plus2 (a b : Nat) (ha1 : 48 ≤ a) (ha2 : a ≤ 57)
    (hb1 : 48 ≤ b) (hb2 : b ≤ 57) :
    parseI32 (43 :: [a, b]) = some (((10 * (a - 48) + (b - 48) : Nat) : Int)) := by
  show posBound? (digitsToNat? [a, b]) = _
  rw [digitsToNat?_two a b ha1 ha2 hb1 hb2]
  simp only [posBound?]
  rw [if_pos (by omega)]

/-- `i32` parse of a minus sign followed by two digits. -/
theorem parseI32_minus2 (a b : Nat) (ha1 : 48 ≤ a) (ha2 : a ≤ 57)
    (hb1 : 48 ≤ b) (hb2 : b ≤ 57) :
    parseI32 (45 :: [a, b]) = some (-((10 * (a - 48) + (b - 48) : Nat) : Int)) := by
  show negBound? (digitsToNat? [a, b]) = _
  rw [digitsToNat?_two a b ha1 ha2 hb1 hb2]
  simp only [negBound?]
  rw [if_pos (by omega)]

/-- Whenever `parse_message` reports a signature block, the message view is
the entire buffer it was handed and the signature view is the empty slice at
the end of that buffer. -/
theorem parse_message_pgp_some (d : List Nat) (ls : List (List Nat))
    (m p : Option (List Nat)) (h : parse_message d ls = .ok (m, p)) (hp : p ≠ none) :
    m = some d ∧ p = some [] := by
  simp only [parse_message] at h
  split at h
  · cases h
    exact absurd rfl hp
  · rename_i l rest
    split at h
    · split at h
      · cases h
      · split at h
        · cases h
          exact absurd rfl hp
        · split at h
          · cases h
          · cases h
            constructor
            · simp [slice]
            · simp
    · cases h

/-- C1: on the spec's end-to-end input, parsing succeeds and every field has
the claimed value except `message`: the code returns the entire input buffer
(`msg_begin = 0` is a TODO stub in the source), not `"Release v1.0\n"`. -/
theorem tag_from_bytes_end_to_end_message_diverges :
    Tag.from_bytes c1Input = some (.ok c1Tag) ∧
    c1Tag.message ≠ some (bytesOfAscii ("Release v1.0\n")) := by
  constructor
  · decide
  · decide

/-- C2: an empty separator line followed by `Hello` does not yield `Hello\n`
as the message but the whole buffer; and an empty separator line followed by
nothing yields `Some` (the whole buffer), not `None`, refuting both the
`None`-iff and the body-extraction parts of the claim. -/
theorem message_after_separator_diverges :
    (∃ t, Tag.from_bytes c2Input = some (.ok t) ∧
          t.message = some c2Input ∧
          t.message ≠ some (bytesOfAscii ("Hello\n"))) ∧
    (∃ t, Tag.from_bytes c2bInput = some (.ok t) ∧ t.message ≠ none) := by
  constructor
  · refine ⟨{ target_raw := bytesOfAscii ("1111111111111111111111111111111111111111"),
              name_raw := bytesOfAscii ("v2"),
              target_kind := .commit,
              message := some c2Input,
              pgp_signature := none,
              signature := { name := bytesOfAscii ("B"),
                             email := bytesOfAscii ("b@c"),
                             time := { time := 7, offset := 0, sign := .plus } } }, ?_, ?_, ?_⟩
    · decide
    · decide
    · decide
  · refine ⟨{ target_raw := bytesOfAscii ("1111111111111111111111111111111111111111"),
              name_raw := bytesOfAscii ("v2"),
              target_kind := .commit,
              message := some c2bInput,
              pgp_signature := none,
              signature := { name := bytesOfAscii ("B"),
                             email := bytesOfAscii ("b@c"),
                             time := { time := 7, offset := 0, sign := .plus } } }, ?_, ?_⟩
    · decide
    · decide

/-- C3: `Tag::from_bytes` aborts (models the `from_utf8(..).expect` panic in
`parse_signature`) on an input whose time token is not valid UTF-8, refuting
the claim that every input yields a `Tag` or an `Error` value. -/
theorem from_bytes_panics_on_non_utf8_time : Tag.from_bytes c3Input = none := by
  decide

/-- C4: on the line `ab<c>` (first `>` after `<` is the last byte, with the
`<` at index 2), `parse_signature` does not return a parse error: the
relative-position guard passes and the slice `&d[email_end + 2..]` starts
past the end of the line, which panics (modelled by `none`). -/
theorem parse_signature_panics_on_trailing_gt :
    parse_signature (bytesOfAscii ("ab<c>")) = none := by
  decide

/-- C5: every `Tag` produced by `Tag::from_bytes` has a `target_raw` whose
hex decode (`Tag::target`) succeeds with a 20-byte identifier, so the
post-validation conversion is infallible. -/
theorem tag_target_infallible (d : List Nat) (t : Tag)
    (h : Tag.from_bytes d = some (.ok t)) :
    ∃ id, Tag.target t = some id ∧ id.length = 20 := by
  simp only [Tag.from_bytes] at h
  split at h
  · rename_i l1 l2 l3 l4 rest heqLines
    split at h
    · cases h
    · rename_i f1 target heq1
      split at h
      · cases h
      · rename_i f2 kindBytes heq2
        split at h
        · cases h
        · rename_i kind heq3
          split at h
          · cases h
          · rename_i f3 name heq3b
            split at h
            · cases h
            · rename_i f4 tagger heq4
              split at h
              · cases h
              · cases h
              · rename_i sig heq5
                split at h
                · cases h
                · rename_i message pgp heq6
                  cases h
                  have hv := split2_ok_valid _ _ _ _ heq1
                  simp only [objectPred, Bool.and_eq_true, beq_iff_eq, Option.isSome_iff_exists] at hv
                  obtain ⟨-, -, id, hid⟩ := hv
                  obtain ⟨-, hlen⟩ := hexDecode20_some _ _ hid
                  exact ⟨id, hid, hlen⟩
  · cases h

/-- Witness for C5: the infallibility theorem applied to a concrete parse. -/
theorem tag_target_infallible_witness :
    ∃ id, Tag.target c5Tag = some id ∧ id.length = 20 :=
  tag_target_infallible c5Input c5Tag (by decide)

/-- C6 counterexample: the code accepts `+00-1` (minutes are parsed by the
signed `i32` parser) and returns offset -60, while the claimed algorithm
with an unsigned minutes parse has no value there. -/
theorem tz_minutes_signed_counterexample :
    parse_timezone_offset (bytesOfAscii ("+00-1")) = some (.ok (-60, .plus)) ∧
    claimedTzOffset (bytesOfAscii ("+00-1")) = none := by
  constructor
  · decide
  · decide

/-- C6 (amended): for every accepted offset string the returned offset is
the 32-bit wrap of hours*3600 + minutes*60 where both hours (first 3 bytes)
and minutes (remaining bytes) come from the signed `i32` parser — the
minutes sub-parse accepts a sign, unlike the claim's unsigned description;
and for the canonical 5-byte sign-plus-four-digit layout the offset is
exactly hours*3600 + minutes*60, so with a minus sign and a non-zero
minutes component it is not the arithmetic negation of the plus version. -/
theorem parse_timezone_offset_amended :
    (∀ (d : List Nat) (off : Int) (sg : Sign),
       parse_timezone_offset d = some (.ok (off, sg)) →
       ∃ h m : Int, parseI32 (d.take 3) = some h ∧ parseI32 (d.drop 3) = some m ∧
         off = wrap32 (h * 3600 + m * 60)) ∧
    (∀ h1 h2 m1 m2 : Nat, ∀ H M : Int,
       48 ≤ h1 → h1 ≤ 57 → 48 ≤ h2 → h2 ≤ 57 →
       48 ≤ m1 → m1 ≤ 57 → 48 ≤ m2 → m2 ≤ 57 →
       H = 10 * ((h1 : Int) - 48) + ((h2 : Int) - 48) →
       M = 10 * ((m1 : Int) - 48) + ((m2 : Int) - 48) →
       M ≠ 0 →
       parse_timezone_offset [43, h1, h2, m1, m2] =
         some (.ok (H * 3600 + M * 60, .plus)) ∧
       parse_timezone_offset [45, h1, h2, m1, m2] =
         some (.ok ((-H) * 3600 + M * 60, .minus)) ∧
       (-H) * 3600 + M * 60 ≠ -(H * 3600 + M * 60)) := by
  constructor
  · intro d off sg h
    simp only [parse_timezone_offset] at h
    split at h
    · cases h
    · split at h
      · split at h
        · cases h
        · rename_i hours hH
          split at h
          · split at h
            · cases h
            · rename_i minutes hM
              cases h
              exact ⟨hours, minutes, hH, hM, rfl⟩
          · cases h
      · cases h
  · intro h1 h2 m1 m2 H M hh1 hh2 hh3 hh4 hm1 hm2 hm3 hm4 hH hM hMne
    have eH : ((10 * (h1 - 48) + (h2 - 48) : Nat) : Int) = H := by omega
    have eM : ((10 * (m1 - 48) + (m2 - 48) : Nat) : Int) = M := by omega
    have hHb : 0 ≤ H ∧ H ≤ 99 := by omega
    have hMb : 0 ≤ M ∧ M ≤ 99 := by omega
    have hu3p : utf8Valid [43, h1, h2] = true := by
      refine utf8Valid_ascii _ ?_
      intro x hx
      simp only [List.mem_cons, List.not_mem_nil, or_false] at hx
      rcases hx with rfl | rfl | rfl <;> omega
    have hu3m : utf8Valid [45, h1, h2] = true := by
      refine utf8Valid_ascii _ ?_
      intro x hx
      simp only [List.mem_cons, List.not_mem_nil, or_false] at hx
      rcases hx with rfl | rfl | rfl <;> omega
    have hu2 : utf8Valid [m1, m2] = true := by
      refine utf8Valid_ascii _ ?_
      intro x hx
      simp only [List.mem_cons, List.not_mem_nil, or_false] at hx
      rcases hx with rfl | rfl <;> omega
    have hp3 : parseI32 [43, h1, h2] = some H := by
      rw [show ([43, h1, h2] : List Nat) = 43 :: [h1, h2] from rfl,
          parseI32_plus2 h1 h2 hh1 hh2 hh3 hh4, eH]
    have hp3m : parseI32 [45, h1, h2] = some (-H) := by
      rw [show ([45, h1, h2] : List Nat) = 45 :: [h1, h2] from rfl,
          parseI32_minus2 h1 h2 hh1 hh2 hh3 hh4, eH]
    have hp2 : parseI32 [m1, m2] = some M := by
      rw [parseI32_digits2 m1 m2 hm1 hm2 hm3 hm4, eM]
    have hwP : wrap32 (H * 3600 + M * 60) = H * 3600 + M * 60 :=
      wrap32_eq _ (by omega) (by omega)
    have hwM : wrap32 ((-H) * 3600 + M * 60) = (-H) * 3600 + M * 60 :=
      wrap32_eq _ (by omega) (by omega)
    have hsP : tzSign ([43, h1, h2, m1, m2] : List Nat) = Sign.plus := rfl
    have hsM : tzSign ([45, h1, h2, m1, m2] : List Nat) = Sign.minus := rfl
    refine ⟨?_, ?_, by omega⟩
    · simp only [parse_timezone_offset]
      rw [if_neg (by simp)]
      rw [show ([43, h1, h2, m1, m2] : List Nat).take 3 = [43, h1, h2] from rfl,
          show ([43, h1, h2, m1, m2] : List Nat).drop 3 = [m1, m2] from rfl,
          hu3p, hu2, hp3, hp2]
      simp only [reduceIte, hwP, hsP]
    · simp only [parse_timezone_offset]
      rw [if_neg (by simp)]
      rw [show ([45, h1, h2, m1, m2] : List Nat).take 3 = [45, h1, h2] from rfl,
          show ([45, h1, h2, m1, m2] : List Nat).drop 3 = [m1, m2] from rfl,
          hu3m, hu2, hp3m, hp2]
      simp only [reduceIte, hwM, hsM]

/-- Witness for C6 (amended): both parts at concrete inputs. -/
theorem parse_timezone_offset_amended_witness :
    (∃ h m : Int, parseI32 ((bytesOfAscii ("+0200")).take 3) = some h ∧
        parseI32 ((bytesOfAscii ("+0200")).drop 3) = some m ∧
        (7200 : Int) = wrap32 (h * 3600 + m * 60)) ∧
    (parse_timezone_offset [43, 48, 50, 51, 48] =
        some (.ok ((2 : Int) * 3600 + (30 : Int) * 60, .plus)) ∧
     parse_timezone_offset [45, 48, 50, 51, 48] =
        some (.ok ((-(2 : Int)) * 3600 + (30 : Int) * 60, .minus)) ∧
     (-(2 : Int)) * 3600 + (30 : Int) * 60 ≠ -((2 : Int) * 3600 + (30 : Int) * 60)) :=
  ⟨parse_timezone_offset_amended.1 (bytesOfAscii ("+0200")) 7200 .plus (by decide),
   parse_timezone_offset_amended.2 48 50 51 48 2 30 (by omega) (by omega) (by omega)
     (by omega) (by omega) (by omega) (by omega) (by omega)
     (by norm_num) (by norm_num) (by norm_num)⟩

/-- C7: `split2_at_space` fails carrying the line when the line has no space
(fewer than two space-delimited tokens), fails carrying the line when the
acceptance predicate rejects the two tokens, and otherwise returns exactly
the bytes before the first space and the bytes after it, unmodified. -/
theorem split2_at_space_spec (d : List Nat) (p : List Nat → List Nat → Bool) :
    (32 ∉ d → split2_at_space d p = .error (.parseError msgSplitTwo d)) ∧
    (∀ t1 t2, d = t1 ++ 32 :: t2 → 32 ∉ t1 →
       (p t1 t2 = true → split2_at_space d p = .ok (t1, t2)) ∧
       (p t1 t2 = false → split2_at_space d p = .error (.parseError msgSplitValidation d))) := by
  constructor
  · intro h
    simp only [split2_at_space, splitn2_space_no_space d h]
  · intro t1 t2 hd h1
    subst hd
    simp only [split2_at_space, splitn2_space_first_space t1 t2 h1]
    constructor
    · intro hp
      rw [if_pos hp]
    · intro hp
      rw [if_neg (by simp [hp])]

/-- Witness for C7: the splitter specification applied to concrete lines. -/
theorem split2_at_space_spec_witness :
    split2_at_space (bytesOfAscii ("ab")) predTrue =
      .error (.parseError msgSplitTwo (bytesOfAscii ("ab"))) ∧
    split2_at_space (bytesOfAscii ("a b")) predTrue =
      .ok (bytesOfAscii ("a"), bytesOfAscii ("b")) ∧
    split2_at_space (bytesOfAscii ("a b")) predFalse =
      .error (.parseError msgSplitValidation (bytesOfAscii ("a b"))) :=
  ⟨(split2_at_space_spec (bytesOfAscii ("ab")) predTrue).1 (by decide),
   ((split2_at_space_spec (bytesOfAscii ("a b")) predTrue).2 [97] [98]
      (by decide) (by decide)).1 (by decide),
   ((split2_at_space_spec (bytesOfAscii ("a b")) predFalse).2 [97] [98]
      (by decide) (by decide)).2 (by decide)⟩

/-- C8: the timezone parser rejects every string shorter than 5 bytes and
every string not starting with a plus or minus byte, carrying the offending
bytes; `+0000` parses to offset 0 with sign `Plus` and `+0200` to 7200 with
sign `Plus`. -/
theorem parse_timezone_offset_boundary :
    (∀ d : List Nat, d.length < 5 →
       parse_timezone_offset d = some (.error (.parseError msgTz d))) ∧
    (∀ d : List Nat, (∀ c, d.head? = some c → c ≠ 43 ∧ c ≠ 45) →
       parse_timezone_offset d = some (.error (.parseError msgTz d))) ∧
    parse_timezone_offset (bytesOfAscii ("+0000")) = some (.ok (0, .plus)) ∧
    parse_timezone_offset (bytesOfAscii ("+0200")) = some (.ok (7200, .plus)) := by
  refine ⟨?_, ?_, by decide, by decide⟩
  · intro d h
    simp only [parse_timezone_offset]
    rw [if_pos (Or.inl h)]
  · intro d h
    simp only [parse_timezone_offset]
    rw [if_pos (Or.inr ?_)]
    rintro (hc | hc)
    · exact (h 43 hc).1 rfl
    · exact (h 45 hc).2 rfl

/-- Witness for C8: both rejection clauses applied to concrete strings. -/
theorem parse_timezone_offset_boundary_witness :
    parse_timezone_offset (bytesOfAscii ("+01")) =
      some (.error (.parseError msgTz (bytesOfAscii ("+01")))) ∧
    parse_timezone_offset (bytesOfAscii ("00000")) =
      some (.error (.parseError msgTz (bytesOfAscii ("00000")))) :=
  ⟨parse_timezone_offset_boundary.1 (bytesOfAscii ("+01")) (by decide),
   parse_timezone_offset_boundary.2.1 (bytesOfAscii ("00000"))
     (by intro c hc
         have hc48 : c = 48 := by
           have h48 : (bytesOfAscii ("00000")).head? = some 48 := by decide
           rw [h48] at hc
           exact (Option.some.inj hc).symm
         subst hc48
         exact ⟨by decide, by decide⟩)⟩

/-- C9: on a well-formed buffer, `target_raw`, `name_raw`, `signature.name`
and `signature.email` are the claimed substrings of the input, but the
message is the whole buffer rather than the body substring after the blank
separator line, refuting the round-trip property for the message field. -/
theorem round_trip_views_message_diverges :
    (∃ t, Tag.from_bytes c9Input = some (.ok t) ∧
          t.target_raw = slice c9Input 7 47 ∧
          t.name_raw = slice c9Input 62 66 ∧
          t.signature.name = slice c9Input 74 80 ∧
          t.signature.email = slice c9Input 82 98 ∧
          t.message = some c9Input ∧
          t.message ≠ some (slice c9Input 110 115)) := by
  refine ⟨{ target_raw := bytesOfAscii ("aaaaaaaaaaaaaaaaaaaaaaaaaaaaaaaaaaaaaaaa"),
            name_raw := bytesOfAscii ("nine"),
            target_kind := .blob,
            message := some c9Input,
            pgp_signature := none,
            signature := { name := bytesOfAscii ("Nine N"),
                           email := bytesOfAscii ("nine@example.com"),
                           time := { time := 99, offset := 5400, sign := .plus } } },
    ?_, ?_, ?_, ?_, ?_, ?_, ?_⟩ <;> decide

/-- C10: if the message parser sees the blank separator and then finds a
line starting with the PGP begin marker followed (in the remaining lines) by
one starting with the end marker, it returns the whole buffer it was handed
as the message and the empty slice at the buffer's end as the signature; and
at the `Tag::from_bytes` level, where the buffer handed over is the full
input, any tag carrying a signature block has `message` = the full input and
`pgp_signature` = the empty end-of-buffer slice. -/
theorem parse_message_pgp_block :
    (∀ (d : List Nat) (rest rest2 rest3 : List (List Nat)),
       0 < d.length →
       findAfter (fun l => pgpBegin.isPrefixOf l) rest = some rest2 →
       findAfter (fun l => pgpEnd.isPrefixOf l) rest2 = some rest3 →
       parse_message d ([] :: rest) = .ok (some d, some [])) ∧
    (∀ (d : List Nat) (t : Tag),
       Tag.from_bytes d = some (.ok t) → t.pgp_signature ≠ none →
       t.message = some d ∧ t.pgp_signature = some []) := by
  constructor
  · intro d rest rest2 rest3 hd hb he
    have h0 : ¬ d.length ≤ 0 := by omega
    simp [parse_message, hb, he, h0, slice]
  · intro d t h hp
    simp only [Tag.from_bytes] at h
    split at h
    · rename_i l1 l2 l3 l4 rest heqLines
      split at h
      · cases h
      · rename_i f1 target heq1
        split at h
        · cases h
        · rename_i f2 kindBytes heq2
          split at h
          · cases h
          · rename_i kind heq3
            split at h
            · cases h
            · rename_i f3 name heq3b
              split at h
              · cases h
              · rename_i f4 tagger heq4
                split at h
                · cases h
                · cases h
                · rename_i sig heq5
                  split at h
                  · cases h
                  · rename_i message pgp heq6
                    cases h
                    exact parse_message_pgp_some d rest message pgp heq6 hp
    · cases h

/-- Witness for C10: both parts applied at concrete inputs. -/
theorem parse_message_pgp_block_witness :
    parse_message (bytesOfAscii ("x")) ([] :: [pgpBegin, pgpEnd]) =
      .ok (some (bytesOfAscii ("x")), some []) ∧
    (c10Tag.message = some c10Input ∧ c10Tag.pgp_signature = some []) :=
  ⟨parse_message_pgp_block.1 (bytesOfAscii ("x")) [pgpBegin, pgpEnd] [pgpEnd] []
      (by decide) (by decide) (by decide),
   parse_message_pgp_block.2 c10Input c10Tag (by decide) (by decide)⟩

end GitOdb
